import Mathlib

/-!
Verification of the `xan help` documentation rendering engine
(source: src/cmd/help.rs of the xan repository).

The Rust source is shallowly embedded below.  Strings are Lean `String`s
(lists of characters).  External collaborators — the `colored` styling
crate, the `regex` rewrite passes, the `textwrap` fill/indent helpers,
the embedded documentation blobs brought in with include_str!, and
serde_json deserialization — are modelled as the fields of an `Ext`
record over which all theorems are universally quantified; the functions
of help.rs itself are translated definition by definition and keep their
source names.  A Rust panic (the `unwrap` calls on the column-width
computation and on parsing) is modelled by an `Option`/`RunResult.panic`
result.
-/

set_option maxRecDepth 4000

namespace XanHelp

/-- Models Rust `char::is_ascii_alphanumeric` (used at src/cmd/help.rs
line 62): true exactly on ASCII digits and ASCII upper/lower letters. -/
def isAsciiAlphanumeric (c : Char) : Bool :=
  (48 ≤ c.toNat && c.toNat ≤ 57) ||
  (65 ≤ c.toNat && c.toNat ≤ 90) ||
  (97 ≤ c.toNat && c.toNat ≤ 122)

/-- Character-level model of Rust `str::to_lowercase`, restricted to its
ASCII action (uppercase ASCII letters are shifted by 32, everything else
is left alone).  Rust additionally applies the Unicode lowercase mapping
to non-ASCII characters; every such character is deleted unchanged by the
filter in `slug` and lowered titles/queries are only ever compared with
each other, so the ASCII fragment is what the claims depend on. -/
def rustCharToLower (c : Char) : Char :=
  if 65 ≤ c.toNat && c.toNat ≤ 90 then Char.ofNat (c.toNat + 32) else c

/-- Models Rust `str::to_lowercase` (see `rustCharToLower`). -/
def rustToLowercase (s : String) : String :=
  ⟨s.data.map rustCharToLower⟩

/-- Character-list core of `slug` (src/cmd/help.rs lines 59-64):
lowercase, then delete every character that is neither a space nor an
ASCII alphanumeric (`replace(pred, "")`), then turn spaces into hyphens
(`replace(' ', "-")`). -/
def slugList (cs : List Char) : List Char :=
  ((cs.map rustCharToLower).filter
      (fun c => !((c != ' ') && !(isAsciiAlphanumeric c)))).map
      (fun c => if c == ' ' then '-' else c)

/-- Embedding of `slug` (src/cmd/help.rs lines 59-64). -/
def slug (s : String) : String :=
  ⟨slugList s.data⟩

/-- Models Rust `str::replace` on lists of characters: scan left to
right, replacing non-overlapping occurrences of `pat`, resuming after
the replacement text.  The extra `Nat` argument is recursion fuel (one
unit per consumed character) making the function structurally
recursive; `replaceAux` below supplies fuel equal to the list length,
which is always sufficient since a step with a non-empty matched
pattern consumes at least one character.  Rust's behaviour for an
empty pattern (which inserts the replacement between every character)
is never exercised by help.rs; an empty `pat` is a no-op here. -/
def replaceFuel (pat rep : List Char) : Nat → List Char → List Char
  | _, [] => []
  | 0, l => l
  | n + 1, c :: rest =>
      if pat ≠ [] ∧ pat.isPrefixOf (c :: rest) then
        rep ++ replaceFuel pat rep n (List.drop pat.length (c :: rest))
      else
        c :: replaceFuel pat rep n rest

/-- Left-to-right non-overlapping replacement (see `replaceFuel`). -/
def replaceAux (pat rep l : List Char) : List Char :=
  replaceFuel pat rep l.length l

/-- Models Rust `str::replace` (string version of `replaceAux`). -/
def rustReplace (s pat rep : String) : String :=
  ⟨replaceAux pat.data rep.data s.data⟩

/-- Helper for `strContains`: does `pat` occur in the scanned list? -/
def containsAux (pat : List Char) : List Char → Bool
  | [] => pat.isEmpty
  | c :: rest => pat.isPrefixOf (c :: rest) || containsAux pat rest

/-- Models Rust `str::contains` with a string pattern (substring test),
as used at src/cmd/help.rs lines 221 and 227. -/
def strContains (hay pat : String) : Bool :=
  containsAux pat.data hay.data

/-- Models `Vec::join(sep)` from the source's
`collect::<Vec<_>>().join(sep)` idiom. -/
def joinSep (sep : String) : List String → String
  | [] => ""
  | [x] => x
  | x :: y :: xs => x ++ sep ++ joinSep sep (y :: xs)

/-- Concatenation of a list of strings (the source's sequential
`push_str` loops and `join("")`). -/
def concatList (l : List String) : String :=
  l.foldr (fun a b => a ++ b) ""

/-- Number of newline characters in a string (used to talk about
"lines" of rendered output). -/
def countNewlines (s : String) : Nat :=
  (s.data.filter (fun c => c == '\n')).length

/-- A string free of newline characters. -/
@[reducible] def nlFree (s : String) : Prop :=
  '\n' ∉ s.data

/-- Embedding of `escape_markdown_argument` (src/cmd/help.rs
lines 48-53). -/
def escape_markdown_argument (s : String) : String :=
  rustReplace (rustReplace (rustReplace s "*" "\\*") "<" "\\<") ">" "\\>"

/-- Embedding of `escape_markdown_linebreaks` (src/cmd/help.rs
lines 55-57). -/
def escape_markdown_linebreaks (s : String) : String :=
  rustReplace (rustReplace s "\n\n" "<br>") "\n" "<br>"

/-- Embedding of `OperatorExample` (src/cmd/help.rs lines 198-202). -/
structure OperatorExample where
  snippet : String
  help : Option String

/-- Embedding of `OperatorHelpSection` (src/cmd/help.rs lines 133-138). -/
structure OperatorHelpSection where
  title : String
  prelude : Option String
  examples : List OperatorExample

/-- Embedding of `OperatorHelpSections` (src/cmd/help.rs lines 66-67);
`sections` is the tuple-struct field `.0`. -/
structure OperatorHelpSections where
  sections : List OperatorHelpSection

/-- Embedding of `FunctionHelp` (src/cmd/help.rs lines 340-348). -/
structure FunctionHelp where
  name : String
  arguments : Option (List String)
  returns : String
  help : String
  aliases : Option (List String)
  alternatives : Option (List (List String))

/-- Embedding of `FunctionHelpSection` (src/cmd/help.rs lines 306-310). -/
structure FunctionHelpSection where
  title : String
  functions : List FunctionHelp

/-- Embedding of `FunctionHelpSections` (src/cmd/help.rs lines 213-214);
`sections` is the tuple-struct field `.0`. -/
structure FunctionHelpSections where
  sections : List FunctionHelpSection

/-- Embedding of `Aggs` (src/cmd/help.rs lines 472-473); `entries` is
the tuple-struct field `.0`. -/
structure Aggs where
  entries : List FunctionHelp

/-- Embedding of `ScrapingHelp` (src/cmd/help.rs lines 513-517). -/
structure ScrapingHelp where
  selectors : List FunctionHelp
  extractors : List FunctionHelp

/-- External collaborators of src/cmd/help.rs, modelled at their
interface boundary (the spec's section 1 puts them out of scope):

- the `colored` crate's styling combinators (`cyan`, `red`, ... );
  their output depends on terminal detection, so each is an arbitrary
  string transform;
- `textwrap::fill` (`fill width s`) and `textwrap::indent`
  (`indent text margin`);
- one whole-buffer rewrite function per compiled regex of the source
  (each models `X_REGEX.replace_all(text, rewrite)` for the regex of
  the same name, src/cmd/help.rs lines 579-589 and 627-639);
- the eight embedded documentation blobs (include_str! files that are
  not part of this source file);
- the four serde_json deserializers, returning `none` on parse failure
  (the source's `unwrap` then panics). -/
structure Ext where
  cyan : String → String
  red : String → String
  green : String → String
  yellow : String → String
  blue : String → String
  magenta : String → String
  dimmed : String → String
  fill : Nat → String → String
  indent : String → String → String
  quotePass : String → String
  mainSectionPass : String → String
  urlPass : String → String
  unaryOperatorPass : String → String
  binaryOperatorPass : String → String
  pipelineOperatorPass : String → String
  slicePass : String → String
  flagPass : String → String
  numberPass : String → String
  linkPass : String → String
  codeFencePass : String → String
  commentPass : String → String
  cheatsheetStr : String
  operatorsJsonStr : String
  functionsPreludeStr : String
  functionsJsonStr : String
  aggsPreludeStr : String
  aggsJsonStr : String
  scrapingCheatsheetStr : String
  scrapingJsonStr : String
  parseFunctions : String → Option FunctionHelpSections
  parseOperators : String → Option OperatorHelpSections
  parseAggs : String → Option (List FunctionHelp)
  parseScraping : String → Option ScrapingHelp

/-- Embedding of `wrap` (src/cmd/help.rs lines 12-14):
`textwrap::fill(string, 81)`. -/
def wrap (ext : Ext) (s : String) : String :=
  ext.fill 81 s

/-- Embedding of `colorize_functions_help` (src/cmd/help.rs
lines 641-675): the ordered chain of whole-buffer rewrite passes —
quotes, section headers, URLs, unary operators, binary operators, the
pipeline operator, slices, flags — applied in exactly the source's
order. -/
def colorize_functions_help (ext : Ext) (help : String) : String :=
  ext.flagPass
    (ext.slicePass
      (ext.pipelineOperatorPass
        (ext.binaryOperatorPass
          (ext.unaryOperatorPass
            (ext.urlPass
              (ext.mainSectionPass
                (ext.quotePass help)))))))

/-- Embedding of `recombobulate_cheatsheet` (src/cmd/help.rs
lines 595-625): first the three literal cross-reference links are
replaced by their inline-code equivalents, then the number pass, the
inline colorization chain, the list-link-stripping pass, the code-fence
pass and the comment pass run, in that order. -/
def recombobulate_cheatsheet (ext : Ext) (help : String) : String :=
  let h := rustReplace help
    "[`xan help functions`](./functions.md)" "`xan help functions`"
  let h := rustReplace h
    "[`xan help cheatsheet`](./cheatsheet.md)" "`xan help cheatsheet`"
  let h := rustReplace h "[`xan help aggs`](./aggs.md)" "`xan help aggs`"
  let h := ext.numberPass h
  let h := colorize_functions_help ext h
  let h := ext.linkPass h
  let h := ext.codeFencePass h
  ext.commentPass h

/-- Embedding of `get_colorized_cheatsheet` (src/cmd/help.rs
lines 677-679). -/
def get_colorized_cheatsheet (ext : Ext) : String :=
  recombobulate_cheatsheet ext ext.cheatsheetStr

/-- Embedding of `OperatorExample::to_txt` (src/cmd/help.rs
lines 204-211): with help text, the snippet is left-aligned in a
`width`-character column and the help follows after a spaced hyphen;
without help text, the snippet alone.  Rust's formatter pads with
spaces when the snippet is shorter than `width`, counting characters. -/
def OperatorExample.to_txt (e : OperatorExample) (width : Nat) : String :=
  match e.help with
  | some h =>
      e.snippet ++ ⟨List.replicate (width - e.snippet.data.length) ' '⟩ ++ " - " ++ h
  | none => e.snippet

/-- Column width of an operator section (src/cmd/help.rs lines 151-156
and 178-183): the maximum of `snippet.len()` (UTF-8 byte length) over
the examples, `none` when there are no examples (where the source's
`.max().unwrap()` panics). -/
def OperatorHelpSection.maxWidth (s : OperatorHelpSection) : Option Nat :=
  (s.examples.map (fun e => e.snippet.utf8ByteSize)).max?

/-- Embedding of `OperatorHelpSection::to_txt` (src/cmd/help.rs
lines 141-166).  Returns `none` when the section has no examples, where
the source panics on `.max().unwrap()`. -/
def OperatorHelpSection.to_txt (ext : Ext) (s : OperatorHelpSection) :
    Option String :=
  (s.maxWidth).map (fun max_width =>
    "### " ++ s.title ++ "\n\n" ++
    (match s.prelude with
     | some p => wrap ext p ++ "\n\n"
     | none => "") ++
    concatList (s.examples.map
      (fun e => ext.indent (e.to_txt max_width) "    " ++ "\n")) ++
    "\n\n")

/-- Embedding of `OperatorHelpSection::to_md` (src/cmd/help.rs
lines 168-195).  Returns `none` when the section has no examples. -/
def OperatorHelpSection.to_md (s : OperatorHelpSection) : Option String :=
  (s.maxWidth).map (fun max_width =>
    "### " ++ s.title ++ "\n\n" ++
    (match s.prelude with
     | some p => p ++ "\n\n"
     | none => "") ++
    "```txt\n" ++
    concatList (s.examples.map (fun e => e.to_txt max_width ++ "\n")) ++
    "```\n\n")

/-- Embedding of `OperatorHelpSections::txt_summary` (src/cmd/help.rs
lines 70-87). -/
def OperatorHelpSections.txt_summary (self : OperatorHelpSections) : String :=
  "- Operators\n" ++
  joinSep "\n" (self.sections.map (fun s => "    - " ++ s.title)) ++
  "\n"

/-- Embedding of `OperatorHelpSections::md_summary` (src/cmd/help.rs
lines 89-106). -/
def OperatorHelpSections.md_summary (self : OperatorHelpSections) : String :=
  "- [Operators](#operators)\n" ++
  joinSep "\n" (self.sections.map
    (fun s => "    - [" ++ s.title ++ "](#" ++ slug s.title ++ ")")) ++
  "\n"

/-- Embedding of `OperatorHelpSections::to_txt` (src/cmd/help.rs
lines 108-118); `none` when any section panics. -/
def OperatorHelpSections.to_txt (ext : Ext) (self : OperatorHelpSections) :
    Option String :=
  (self.sections.mapM (OperatorHelpSection.to_txt ext)).map
    (fun parts => "## Operators\n\n" ++ concatList parts)

/-- Embedding of `OperatorHelpSections::to_md` (src/cmd/help.rs
lines 120-130); `none` when any section panics. -/
def OperatorHelpSections.to_md (self : OperatorHelpSections) : Option String :=
  (self.sections.mapM OperatorHelpSection.to_md).map
    (fun parts => "## Operators\n\n" ++ concatList parts)

/-- Embedding of `join_arguments` (src/cmd/help.rs lines 350-361): an
argument starting with the character `<` is a dimmed placeholder, any
other argument is red; arguments are joined with `", "`. -/
def join_arguments (ext : Ext) (args : List String) : String :=
  joinSep ", " (args.map (fun arg =>
    match arg.data with
    | '<' :: _ => ext.dimmed arg
    | _ => ext.red arg))

/-- Embedding of the local `single_form` of `FunctionHelp::to_txt`
(src/cmd/help.rs lines 365-376): one call-signature line. -/
def single_form_txt (ext : Ext) (name : String)
    (args_opt : Option (List String)) (returns : String) : String :=
  match args_opt with
  | some args =>
      "- " ++ ext.cyan name ++ "(" ++ join_arguments ext args ++ ") -> " ++
      ext.magenta returns ++ "\n"
  | none => "- " ++ ext.cyan name ++ " -> " ++ ext.magenta returns ++ "\n"

/-- The call-signature lines pushed by `FunctionHelp::to_txt`
(src/cmd/help.rs lines 378-395), in source order: the primary form,
one form per alias (same arguments and return), one form per
alternative argument list (same name and return). -/
def FunctionHelp.callFormsTxt (ext : Ext) (h : FunctionHelp) : List String :=
  single_form_txt ext h.name h.arguments h.returns ::
  ((h.aliases.getD []).map (fun a => single_form_txt ext a h.arguments h.returns) ++
   (h.alternatives.getD []).map (fun alt => single_form_txt ext h.name (some alt) h.returns))

/-- Embedding of `FunctionHelp::to_txt` (src/cmd/help.rs lines 364-401):
the call-signature lines followed by the colorized, indented, wrapped
help prose and a blank line. -/
def FunctionHelp.to_txt (ext : Ext) (h : FunctionHelp) : String :=
  single_form_txt ext h.name h.arguments h.returns ++
  concatList ((h.aliases.getD []).map
    (fun a => single_form_txt ext a h.arguments h.returns)) ++
  concatList ((h.alternatives.getD []).map
    (fun alt => single_form_txt ext h.name (some alt) h.returns)) ++
  colorize_functions_help ext (ext.indent (wrap ext h.help) "    ") ++
  "\n\n"

/-- Embedding of the local `single_form` of `FunctionHelp::to_md`
(src/cmd/help.rs lines 404-441): one Markdown call-signature line; the
aliases, when present, are listed inline in a single parenthesised
clause. -/
def single_form_md (name : String) (args_opt : Option (List String))
    (returns help : String) (aliases : Option (List String)) : String :=
  "- **" ++ name ++ "**" ++
  (match args_opt with
   | some args =>
       "(" ++
       joinSep ", " (args.map
         (fun arg => "*" ++ escape_markdown_argument arg ++ "*")) ++
       ")"
   | none => "") ++
  " -> `" ++ returns ++ "`" ++
  (match aliases with
   | some names =>
       " (aliases: " ++
       joinSep ", " (names.map (fun n => "**" ++ n ++ "**")) ++ ")"
   | none => "") ++
  ": " ++ escape_markdown_linebreaks help

/-- Embedding of `FunctionHelp::to_md` (src/cmd/help.rs lines 403-469):
the primary Markdown form, then one additional form per alternative
argument list (each preceded by a newline), then a final newline. -/
def FunctionHelp.to_md (h : FunctionHelp) : String :=
  single_form_md h.name h.arguments h.returns h.help h.aliases ++
  concatList ((h.alternatives.getD []).map
    (fun alt => "\n" ++ single_form_md h.name (some alt) h.returns h.help h.aliases)) ++
  "\n"

/-- Embedding of `FunctionHelpSection::to_txt` (src/cmd/help.rs
lines 312-324). -/
def FunctionHelpSection.to_txt (ext : Ext) (self : FunctionHelpSection) : String :=
  ext.yellow ("## " ++ self.title ++ "\n\n") ++
  concatList (self.functions.map
    (fun f => ext.indent (f.to_txt ext) "    ")) ++
  "\n"

/-- Embedding of `FunctionHelpSection::to_md` (src/cmd/help.rs
lines 326-337). -/
def FunctionHelpSection.to_md (self : FunctionHelpSection) : String :=
  "## " ++ self.title ++ "\n\n" ++
  concatList (self.functions.map FunctionHelp.to_md) ++
  "\n"

/-- The `should_keep_operators` flag of `FunctionHelpSections::to_txt`
(src/cmd/help.rs lines 218-223): it starts `true` and is cleared when a
query is supplied whose lowercase form is not a substring of the literal
string `"operators"` (the source's
`!"operators".contains(&query.to_lowercase())`). -/
def shouldKeepOperators (query : Option String) : Bool :=
  match query with
  | none => true
  | some q => strContains "operators" (rustToLowercase q)

/-- The filtered section list of `FunctionHelpSections::to_txt`
(src/cmd/help.rs lines 220-231): with a query, keep the sections whose
lowercased title contains the lowercased query; without, keep all. -/
def FunctionHelpSections.filteredSections (self : FunctionHelpSections)
    (query : Option String) : List FunctionHelpSection :=
  match query with
  | some q =>
      self.sections.filter
        (fun s => strContains (rustToLowercase s.title) (rustToLowercase q))
  | none => self.sections

/-- Embedding of `FunctionHelpSections::to_txt` (src/cmd/help.rs
lines 217-267): colorized prelude, operator summary (when kept),
filtered section titles, the colorized Operators block (when kept), the
filtered section bodies.  The Operators block is only rendered when
kept, so an empty operator example list panics (`none`) only in that
case. -/
def FunctionHelpSections.to_txt (ext : Ext) (self : FunctionHelpSections)
    (operator_sections : OperatorHelpSections) (query : Option String) :
    Option String :=
  let keep := shouldKeepOperators query
  let filtered := self.filteredSections query
  (if keep then
     (operator_sections.to_txt ext).map (colorize_functions_help ext)
   else
     some "").map (fun operatorsBlock =>
    colorize_functions_help ext ext.functionsPreludeStr ++ "\n" ++
    (if keep then operator_sections.txt_summary else "") ++
    joinSep "\n" (filtered.map (fun s => "- " ++ s.title)) ++
    "\n\n" ++
    operatorsBlock ++
    concatList (filtered.map (fun s => s.to_txt ext)))

/-- Embedding of `FunctionHelpSections::to_md` (src/cmd/help.rs
lines 269-303); Markdown rendering has no filtering. -/
def FunctionHelpSections.to_md (ext : Ext) (self : FunctionHelpSections)
    (operator_sections : OperatorHelpSections) : Option String :=
  (operator_sections.to_md).map (fun operatorsBlock =>
    ext.functionsPreludeStr ++ "\n" ++
    operator_sections.md_summary ++
    joinSep "\n" (self.sections.map
      (fun s => "- [" ++ s.title ++ "](#" ++ slug s.title ++ ")")) ++
    "\n\n" ++
    operatorsBlock ++ "\n" ++
    concatList (self.sections.map FunctionHelpSection.to_md))

/-- Embedding of `Aggs::to_txt` (src/cmd/help.rs lines 476-492). -/
def Aggs.to_txt (ext : Ext) (self : Aggs) : String :=
  colorize_functions_help ext ext.aggsPreludeStr ++ "\n" ++
  joinSep "" (self.entries.map (fun h => ext.indent (h.to_txt ext) "    "))

/-- Embedding of `Aggs::to_md` (src/cmd/help.rs lines 494-510). -/
def Aggs.to_md (ext : Ext) (self : Aggs) : String :=
  ext.aggsPreludeStr ++ "\n" ++
  joinSep "" (self.entries.map FunctionHelp.to_md)

/-- Embedding of `ScrapingHelp::to_txt` (src/cmd/help.rs
lines 520-547). -/
def ScrapingHelp.to_txt (ext : Ext) (self : ScrapingHelp) : String :=
  recombobulate_cheatsheet ext ext.scrapingCheatsheetStr ++
  "\n\n" ++ ext.yellow "## Selector functions" ++ "\n\n" ++
  joinSep "" (self.selectors.map (fun h => ext.indent (h.to_txt ext) "    ")) ++
  "\n" ++ ext.yellow "## Extractor functions" ++ "\n\n" ++
  joinSep "" (self.extractors.map (fun h => ext.indent (h.to_txt ext) "    "))

/-- Embedding of `ScrapingHelp::to_md` (src/cmd/help.rs
lines 549-576). -/
def ScrapingHelp.to_md (ext : Ext) (self : ScrapingHelp) : String :=
  ext.scrapingCheatsheetStr ++
  "\n\n## Selector functions\n\n" ++
  joinSep "" (self.selectors.map FunctionHelp.to_md) ++
  "\n## Extractor functions\n\n" ++
  joinSep "" (self.extractors.map FunctionHelp.to_md)

/-- The selected subcommand.  The source's four mutually exclusive
`cmd_*` booleans (src/cmd/help.rs lines 749-775) come from argument
parsing, an external collaborator that guarantees exactly one is set
(`Args::cmd` hits `unreachable!` otherwise); they are modelled as one
enumeration. -/
inductive Cmd
  | cheatsheet
  | functions
  | aggs
  | scraping
deriving DecidableEq

/-- Embedding of `Args` (src/cmd/help.rs lines 749-760). -/
structure Args where
  cmd : Cmd
  flag_open : Bool
  flag_pager : Bool
  flag_section : Option String
  flag_json : Bool
  flag_md : Bool

/-- Result of one invocation of `run`: the full string written to the
pager, a usage error (`CliResult` error), or a panic (an `unwrap`
failure). -/
inductive RunResult
  | ok (out : String)
  | usageError (msg : String)
  | panic
deriving DecidableEq

/-- Embedding of `run` (src/cmd/help.rs lines 787-854).  The browser,
pager and argument-parsing mechanics are external; the modelled result
is the text written to the pager (with `writeln!` appending a newline
and `write!` appending none, exactly as in the source), or the usage
error raised before any rendering, or a panic from an `unwrap`. -/
def run (ext : Ext) (args : Args) : RunResult :=
  if args.flag_open then
    RunResult.ok ""
  else if args.flag_pager && (args.flag_json || args.flag_md) then
    RunResult.usageError "-p/--pager does not work with --json nor --md!"
  else if args.flag_section.isSome && !(args.cmd = Cmd.functions) then
    RunResult.usageError
      "-S/--section <query> only works with the `functions` subcommand!"
  else
    match args.cmd with
    | Cmd.cheatsheet =>
        if args.flag_json then
          RunResult.usageError "cheatsheet does not support --json!"
        else if args.flag_md then
          RunResult.ok (ext.cheatsheetStr ++ "\n")
        else
          RunResult.ok (get_colorized_cheatsheet ext ++ "\n")
    | Cmd.functions =>
        if args.flag_json then
          RunResult.ok (ext.functionsJsonStr ++ "\n")
        else
          match ext.parseFunctions ext.functionsJsonStr with
          | none => RunResult.panic
          | some fdoc =>
              match ext.parseOperators ext.operatorsJsonStr with
              | none => RunResult.panic
              | some odoc =>
                  if args.flag_md then
                    match fdoc.to_md ext odoc with
                    | some out => RunResult.ok out
                    | none => RunResult.panic
                  else
                    match fdoc.to_txt ext odoc args.flag_section with
                    | some out => RunResult.ok out
                    | none => RunResult.panic
    | Cmd.aggs =>
        if args.flag_json then
          RunResult.ok (ext.aggsJsonStr ++ "\n")
        else
          match ext.parseAggs ext.aggsJsonStr with
          | none => RunResult.panic
          | some entries =>
              if args.flag_md then
                RunResult.ok (Aggs.to_md ext ⟨entries⟩)
              else
                RunResult.ok (Aggs.to_txt ext ⟨entries⟩)
    | Cmd.scraping =>
        if args.flag_json then
          RunResult.ok (ext.scrapingJsonStr ++ "\n")
        else
          match ext.parseScraping ext.scrapingJsonStr with
          | none => RunResult.panic
          | some sdoc =>
              if args.flag_md then
                RunResult.ok (sdoc.to_md ext)
              else
                RunResult.ok (sdoc.to_txt ext)

/-- An `Ext` instance for concrete evaluation: identity styling and
rewrite passes (the `colored` crate emits plain text when the output is
not a terminal, and an identity pass is a legitimate no-match regex
run), identity fill/indent, empty embedded blobs, failing parsers. -/
def idExt : Ext where
  cyan := id
  red := id
  green := id
  yellow := id
  blue := id
  magenta := id
  dimmed := id
  fill := fun _ s => s
  indent := fun s _ => s
  quotePass := id
  mainSectionPass := id
  urlPass := id
  unaryOperatorPass := id
  binaryOperatorPass := id
  pipelineOperatorPass := id
  slicePass := id
  flagPass := id
  numberPass := id
  linkPass := id
  codeFencePass := id
  commentPass := id
  cheatsheetStr := ""
  operatorsJsonStr := ""
  functionsPreludeStr := ""
  functionsJsonStr := ""
  aggsPreludeStr := ""
  aggsJsonStr := ""
  scrapingCheatsheetStr := ""
  scrapingJsonStr := ""
  parseFunctions := fun _ => none
  parseOperators := fun _ => none
  parseAggs := fun _ => none
  parseScraping := fun _ => none

/-- A character that slug output may contain besides the hyphen: ASCII
lowercase letter or ASCII digit. -/
def lowerAlnum (c : Char) : Prop :=
  (97 ≤ c.toNat ∧ c.toNat ≤ 122) ∨ (48 ≤ c.toNat ∧ c.toNat ≤ 57)

/-- A styling or rewrite collaborator that never introduces a newline
into a newline-free string; holds for the `colored` crate, whose
combinators wrap the text in escape sequences containing no newline. -/
def nlPreservingStyle (ext : Ext) : Prop :=
  (∀ s, nlFree s → nlFree (ext.cyan s)) ∧
  (∀ s, nlFree s → nlFree (ext.magenta s)) ∧
  (∀ s, nlFree s → nlFree (ext.red s)) ∧
  (∀ s, nlFree s → nlFree (ext.dimmed s))

/-- A concrete operator document: one section, two examples. -/
def sampleOperators : OperatorHelpSections :=
  ⟨[⟨"Arithmetic", none, [⟨"x + y", some "addition"⟩, ⟨"x", none⟩]⟩]⟩

/-- A concrete function document: two titled sections. -/
def sampleFunctions : FunctionHelpSections :=
  ⟨[⟨"Dates", []⟩, ⟨"Strings", []⟩]⟩

/-- A concrete `Ext` whose embedded cheatsheet contains the
cross-reference link to the functions document. -/
def extWithLinkedCheatsheet : Ext :=
  { idExt with cheatsheetStr := "see [`xan help functions`](./functions.md)" }

/-- A concrete `Ext` with a non-empty functions JSON blob. -/
def extWithFunctionsJson : Ext :=
  { idExt with functionsJsonStr := "[]" }

/-- A concrete function entry exercising one alias and two alternative
argument lists. -/
def sampleEntry : FunctionHelp :=
  ⟨"len", some ["<string>"], "int", "help text", some ["size"],
   some [["<a>"], ["<b>"]]⟩

theorem str_data_inj {a b : String} (h : a.data = b.data) : a = b :=
  congrArg String.mk h

theorem str_data_append (a b : String) : (a ++ b).data = a.data ++ b.data := rfl

theorem str_append_assoc (a b c : String) : a ++ b ++ c = a ++ (b ++ c) := by
  apply str_data_inj
  simp [str_data_append]

theorem str_nil_append (s : String) : "" ++ s = s := by
  apply str_data_inj
  simp [str_data_append]

theorem str_append_nil (s : String) : s ++ "" = s := by
  apply str_data_inj
  simp [str_data_append]

theorem concatList_nil : concatList [] = "" := rfl

theorem concatList_cons (a : String) (l : List String) :
    concatList (a :: l) = a ++ concatList l := rfl

theorem concatList_append (l₁ l₂ : List String) :
    concatList (l₁ ++ l₂) = concatList l₁ ++ concatList l₂ := by
  induction l₁ with
  | nil => simp [concatList_nil, str_nil_append]
  | cons a l ih =>
      simp only [List.cons_append, concatList_cons, ih, str_append_assoc]

theorem countNewlines_append (a b : String) :
    countNewlines (a ++ b) = countNewlines a + countNewlines b := by
  simp [countNewlines, str_data_append, List.filter_append]

theorem countNewlines_eq_zero_of_nlFree {s : String} (h : nlFree s) :
    countNewlines s = 0 := by
  simp only [countNewlines, List.length_eq_zero]
  rw [List.filter_eq_nil_iff]
  intro c hc
  simp only [beq_iff_eq]
  intro hEq
  exact h (hEq ▸ hc)

theorem nlFree_append {a b : String} (ha : nlFree a) (hb : nlFree b) :
    nlFree (a ++ b) := by
  simp only [nlFree, str_data_append, List.mem_append]
  rintro (h | h)
  · exact ha h
  · exact hb h

theorem nlFree_joinSep {sep : String} (hsep : nlFree sep) :
    ∀ {l : List String}, (∀ x ∈ l, nlFree x) → nlFree (joinSep sep l)
  | [], _ => by intro h; simp [joinSep, nlFree] at h
  | [x], h => by
      simpa [joinSep] using h x (by simp)
  | x :: y :: xs, h => by
      have hx : nlFree x := h x (by simp)
      have hrest : nlFree (joinSep sep (y :: xs)) :=
        nlFree_joinSep hsep (fun z hz => h z (List.mem_cons_of_mem x hz))
      exact nlFree_append (nlFree_append hx hsep) hrest

theorem mem_replaceFuel {c : Char} {pat rep : List Char} :
    ∀ {n : Nat} {l : List Char}, c ∈ replaceFuel pat rep n l →
      c ∈ rep ∨ c ∈ l := by
  intro n
  induction n with
  | zero =>
      intro l h
      cases l with
      | nil => simp [replaceFuel] at h
      | cons d rest => exact Or.inr (by simpa [replaceFuel] using h)
  | succ n ih =>
      intro l h
      cases l with
      | nil => simp [replaceFuel] at h
      | cons d rest =>
          rw [replaceFuel] at h
          by_cases hcond : pat ≠ [] ∧ pat.isPrefixOf (d :: rest)
          · rw [if_pos hcond] at h
            rcases List.mem_append.mp h with h' | h'
            · exact Or.inl h'
            · rcases ih h' with h'' | h''
              · exact Or.inl h''
              · exact Or.inr (List.mem_of_mem_drop h'')
          · rw [if_neg hcond] at h
            rcases List.mem_cons.mp h with h' | h'
            · exact Or.inr (h' ▸ List.mem_cons_self d rest)
            · rcases ih h' with h'' | h''
              · exact Or.inl h''
              · exact Or.inr (List.mem_cons_of_mem d h'')

theorem mem_replaceAux {c : Char} {pat rep l : List Char}
    (h : c ∈ replaceAux pat rep l) : c ∈ rep ∨ c ∈ l :=
  mem_replaceFuel h

theorem nlFree_rustReplace {s pat rep : String} (hrep : nlFree rep)
    (hs : nlFree s) : nlFree (rustReplace s pat rep) := by
  intro hmem
  rcases mem_replaceAux hmem with h | h
  · exact hrep h
  · exact hs h

theorem nlFree_escape_markdown_argument {s : String} (hs : nlFree s) :
    nlFree (escape_markdown_argument s) := by
  apply nlFree_rustReplace (by simp [nlFree])
  apply nlFree_rustReplace (by simp [nlFree])
  apply nlFree_rustReplace (by simp [nlFree]) hs

theorem newline_not_mem_replaceFuel_newline {rep : List Char}
    (hrep : '\n' ∉ rep) :
    ∀ (n : Nat) (l : List Char), '\n' ∈ replaceFuel ['\n'] rep n l →
      '\n' ∈ l ∧ n < l.length := by
  intro n
  induction n with
  | zero =>
      intro l h
      cases l with
      | nil => simp [replaceFuel] at h
      | cons c rest =>
          refine ⟨by simpa [replaceFuel] using h, by simp⟩
  | succ n ih =>
      intro l h
      cases l with
      | nil => simp [replaceFuel] at h
      | cons c rest =>
          rw [replaceFuel] at h
          by_cases hc : c = '\n'
          · subst hc
            rw [if_pos (by simp [List.isPrefixOf])] at h
            rcases List.mem_append.mp h with h' | h'
            · exact absurd h' hrep
            · have := ih _ (by simpa using h')
              exact ⟨List.mem_cons_self _ _, by simpa using Nat.succ_lt_succ this.2⟩
          · rw [if_neg (by
                simp only [List.isPrefixOf, ne_eq, not_and, Bool.and_eq_true,
                  beq_iff_eq, not_forall]
                intro _ hand
                exact (hc hand.symm).elim)] at h
            rcases List.mem_cons.mp h with h' | h'
            · exact absurd h'.symm hc
            · have := ih _ h'
              exact ⟨List.mem_cons_of_mem c this.1,
                by simpa using Nat.succ_lt_succ this.2⟩

theorem newline_not_mem_replace_newline {rep : List Char}
    (hrep : '\n' ∉ rep) : ∀ l : List Char, '\n' ∉ replaceAux ['\n'] rep l := by
  intro l hmem
  have := newline_not_mem_replaceFuel_newline hrep l.length l hmem
  exact absurd this.2 (by omega)

theorem countNewlines_escape_markdown_linebreaks (s : String) :
    countNewlines (escape_markdown_linebreaks s) = 0 := by
  apply countNewlines_eq_zero_of_nlFree
  intro hmem
  exact newline_not_mem_replace_newline (by simp) _ hmem

theorem strContains_empty_pattern (hay : String) : strContains hay "" = true := by
  unfold strContains
  cases hay.data with
  | nil => rfl
  | cons c rest => rfl

theorem containsAux_append_middle (p : List Char) :
    ∀ (a b : List Char), containsAux p (a ++ (p ++ b)) = true := by
  intro a
  induction a with
  | nil =>
      intro b
      rw [List.nil_append]
      have hpre : p.isPrefixOf (p ++ b) = true := by
        rw [List.isPrefixOf_iff_prefix]
        exact List.prefix_append p b
      cases hp : p with
      | nil => cases b <;> simp [containsAux, List.isPrefixOf]
      | cons c cs =>
          subst hp
          simp only [List.cons_append, containsAux, Bool.or_eq_true]
          left
          exact hpre
  | cons c rest ih =>
      intro b
      simp only [List.cons_append, containsAux, Bool.or_eq_true]
      right
      exact ih b

theorem strContains_append_middle (a p b : String) :
    strContains (a ++ (p ++ b)) p = true := by
  unfold strContains
  rw [str_data_append, str_data_append]
  exact containsAux_append_middle p.data a.data b.data

theorem char_toNat_ofNat_of_lt {n : Nat} (h : n < 55296) :
    (Char.ofNat n).toNat = n := by
  unfold Char.ofNat
  rw [dif_pos (Or.inl h)]
  rfl

theorem toNat_rustCharToLower_of_upper {c : Char} (h65 : 65 ≤ c.toNat)
    (h90 : c.toNat ≤ 90) : (rustCharToLower c).toNat = c.toNat + 32 := by
  unfold rustCharToLower
  rw [if_pos (by simp [h65, h90])]
  exact char_toNat_ofNat_of_lt (by omega)

theorem rustCharToLower_eq_self {c : Char}
    (h : ¬(65 ≤ c.toNat ∧ c.toNat ≤ 90)) : rustCharToLower c = c := by
  unfold rustCharToLower
  rw [if_neg (by simpa [Bool.and_eq_true, decide_eq_true_eq] using h)]

theorem rustCharToLower_not_upper (c : Char) :
    ¬(65 ≤ (rustCharToLower c).toNat ∧ (rustCharToLower c).toNat ≤ 90) := by
  by_cases h : 65 ≤ c.toNat ∧ c.toNat ≤ 90
  · rw [toNat_rustCharToLower_of_upper h.1 h.2]
    omega
  · rw [rustCharToLower_eq_self h]
    exact h

theorem rustCharToLower_eq_space_iff {c : Char} :
    rustCharToLower c = ' ' ↔ c = ' ' := by
  constructor
  · intro h
    by_cases hu : 65 ≤ c.toNat ∧ c.toNat ≤ 90
    · have := toNat_rustCharToLower_of_upper hu.1 hu.2
      rw [h] at this
      have hsp : (' ').toNat = 32 := rfl
      omega
    · rwa [rustCharToLower_eq_self hu] at h
  · intro h
    subst h
    exact rustCharToLower_eq_self (by decide)

theorem isAsciiAlphanumeric_eq_true_iff (c : Char) :
    isAsciiAlphanumeric c = true ↔
      (48 ≤ c.toNat ∧ c.toNat ≤ 57) ∨ (65 ≤ c.toNat ∧ c.toNat ≤ 90) ∨
      (97 ≤ c.toNat ∧ c.toNat ≤ 122) := by
  simp [isAsciiAlphanumeric, Bool.and_eq_true, Bool.or_eq_true,
    decide_eq_true_eq, and_assoc, or_assoc]

theorem slug_keep_iff (c : Char) :
    (!((c != ' ') && !(isAsciiAlphanumeric c))) = true ↔
      (c = ' ' ∨ isAsciiAlphanumeric c = true) := by
  simp [bne, Bool.not_and, Bool.not_not, Bool.or_eq_true, beq_iff_eq]

theorem space_to_hyphen_of_ne {c : Char} (h : c ≠ ' ') :
    (if c == ' ' then '-' else c) = c := by
  simp [beq_iff_eq, h]

theorem space_not_mem_slugList (cs : List Char) : ' ' ∉ slugList cs := by
  intro hmem
  rcases List.mem_map.mp hmem with ⟨b, hb, hbeq⟩
  by_cases hsp : b = ' '
  · subst hsp
    simp at hbeq
  · rw [space_to_hyphen_of_ne hsp] at hbeq
    exact hsp hbeq

theorem hyphen_mem_slugList_iff (cs : List Char) :
    '-' ∈ slugList cs ↔ ' ' ∈ cs := by
  constructor
  · intro hmem
    rcases List.mem_map.mp hmem with ⟨b, hb, hbeq⟩
    rcases List.mem_filter.mp hb with ⟨hbmem, hbkeep⟩
    by_cases hsp : b = ' '
    · subst hsp
      rcases List.mem_map.mp hbmem with ⟨c₀, hc₀, hc₀eq⟩
      have : c₀ = ' ' := rustCharToLower_eq_space_iff.mp hc₀eq
      exact this ▸ hc₀
    · rw [space_to_hyphen_of_ne hsp] at hbeq
      subst hbeq
      rcases (slug_keep_iff _).mp hbkeep with h | h
      · exact absurd h hsp
      · rw [isAsciiAlphanumeric_eq_true_iff] at h
        have : ('-').toNat = 45 := rfl
        omega
  · intro hmem
    apply List.mem_map.mpr
    refine ⟨' ', ?_, by simp⟩
    apply List.mem_filter.mpr
    constructor
    · exact List.mem_map.mpr ⟨' ', hmem, rustCharToLower_eq_space_iff.mpr rfl⟩
    · exact (slug_keep_iff _).mpr (Or.inl rfl)

theorem mem_slugList_lowerAlnum_or_hyphen {c : Char} {cs : List Char}
    (h : c ∈ slugList cs) : lowerAlnum c ∨ c = '-' := by
  rcases List.mem_map.mp h with ⟨b, hb, hbeq⟩
  rcases List.mem_filter.mp hb with ⟨hbmem, hbkeep⟩
  by_cases hsp : b = ' '
  · subst hsp
    right
    simpa using hbeq.symm
  · rw [space_to_hyphen_of_ne hsp] at hbeq
    subst hbeq
    left
    rcases (slug_keep_iff _).mp hbkeep with hcase | hcase
    · exact absurd hcase hsp
    · rcases List.mem_map.mp hbmem with ⟨c₀, _, hc₀eq⟩
      have hnu := rustCharToLower_not_upper c₀
      rw [hc₀eq] at hnu
      rw [isAsciiAlphanumeric_eq_true_iff] at hcase
      unfold lowerAlnum
      omega

theorem mem_slugList_lowerAlnum_of_no_space {cs : List Char}
    (h : ' ' ∉ cs) {c : Char} (hc : c ∈ slugList cs) : lowerAlnum c := by
  rcases mem_slugList_lowerAlnum_or_hyphen hc with h' | h'
  · exact h'
  · subst h'
    exact absurd ((hyphen_mem_slugList_iff cs).mp hc) h

theorem map_self_of_fixed {α : Type} {f : α → α} {l : List α}
    (h : ∀ a ∈ l, f a = a) : l.map f = l := by
  induction l with
  | nil => rfl
  | cons a l ih =>
      simp only [List.map_cons]
      rw [h a (List.mem_cons_self a l),
        ih (fun b hb => h b (List.mem_cons_of_mem a hb))]

theorem slugList_eq_self_of_lowerAlnum {cs : List Char}
    (h : ∀ c ∈ cs, lowerAlnum c) : slugList cs = cs := by
  unfold slugList
  have hmap1 : cs.map rustCharToLower = cs := by
    apply map_self_of_fixed
    intro c hc
    have := h c hc
    unfold lowerAlnum at this
    exact rustCharToLower_eq_self (by omega)
  rw [hmap1]
  have hfilter : cs.filter (fun c => !((c != ' ') && !(isAsciiAlphanumeric c))) = cs := by
    rw [List.filter_eq_self]
    intro c hc
    apply (slug_keep_iff c).mpr
    right
    rw [isAsciiAlphanumeric_eq_true_iff]
    have := h c hc
    unfold lowerAlnum at this
    omega
  rw [hfilter]
  apply map_self_of_fixed
  intro c hc
  have := h c hc
  unfold lowerAlnum at this
  apply space_to_hyphen_of_ne
  intro hsp
  subst hsp
  revert this
  decide

theorem slugList_idem_iff (cs : List Char) :
    slugList (slugList cs) = slugList cs ↔ ' ' ∉ cs := by
  constructor
  · intro heq hsp
    have hhy : '-' ∈ slugList cs := (hyphen_mem_slugList_iff cs).mpr hsp
    rw [← heq] at hhy
    have := (hyphen_mem_slugList_iff (slugList cs)).mp hhy
    exact space_not_mem_slugList cs this
  · intro hsp
    exact slugList_eq_self_of_lowerAlnum
      (fun c hc => mem_slugList_lowerAlnum_of_no_space hsp hc)

theorem functionSections_to_txt_decomp (ext : Ext)
    (self : FunctionHelpSections) (ops : OperatorHelpSections) (q : String) :
    FunctionHelpSections.to_txt ext self ops (some q) =
      if strContains "operators" (rustToLowercase q) then
        (OperatorHelpSections.to_txt ext ops).map (fun t =>
          colorize_functions_help ext ext.functionsPreludeStr ++ "\n" ++
          ops.txt_summary ++
          joinSep "\n" ((self.filteredSections (some q)).map
            (fun s => "- " ++ s.title)) ++
          "\n\n" ++
          colorize_functions_help ext t ++
          concatList ((self.filteredSections (some q)).map
            (fun s => s.to_txt ext)))
      else
        some (colorize_functions_help ext ext.functionsPreludeStr ++ "\n" ++
          joinSep "\n" ((self.filteredSections (some q)).map
            (fun s => "- " ++ s.title)) ++
          "\n\n" ++
          concatList ((self.filteredSections (some q)).map
            (fun s => s.to_txt ext))) := by
  cases h : strContains "operators" (rustToLowercase q) with
  | true =>
      simp only [FunctionHelpSections.to_txt, shouldKeepOperators, h,
        if_true, Option.map_map]
      rfl
  | false =>
      simp only [FunctionHelpSections.to_txt, shouldKeepOperators, h,
        Bool.false_eq_true, if_false, Option.map_some']
      apply congrArg some
      apply str_data_inj
      simp [str_data_append, List.append_assoc]

theorem filteredSections_empty_query (self : FunctionHelpSections) :
    self.filteredSections (some "") = self.sections := by
  unfold FunctionHelpSections.filteredSections
  apply List.filter_eq_self.mpr
  intro s _
  exact strContains_empty_pattern _

theorem nlFree_join_arguments {ext : Ext} (hst : nlPreservingStyle ext)
    {args : List String} (ha : ∀ a ∈ args, nlFree a) :
    nlFree (join_arguments ext args) := by
  unfold join_arguments
  apply nlFree_joinSep (by unfold nlFree; decide)
  intro x hx
  rcases List.mem_map.mp hx with ⟨a, hamem, haeq⟩
  subst haeq
  split
  · exact hst.2.2.2 a (ha a hamem)
  · exact hst.2.2.1 a (ha a hamem)

theorem countNewlines_single_form_txt {ext : Ext} (hst : nlPreservingStyle ext)
    {name returns : String} (hn : nlFree name) (hr : nlFree returns)
    {args_opt : Option (List String)}
    (ha : ∀ a ∈ args_opt.getD [], nlFree a) :
    countNewlines (single_form_txt ext name args_opt returns) = 1 := by
  cases args_opt with
  | none =>
      simp only [single_form_txt, countNewlines_append]
      rw [countNewlines_eq_zero_of_nlFree (hst.1 _ hn),
        countNewlines_eq_zero_of_nlFree (hst.2.1 _ hr)]
      decide
  | some args =>
      simp only [single_form_txt, countNewlines_append]
      rw [countNewlines_eq_zero_of_nlFree (hst.1 _ hn),
        countNewlines_eq_zero_of_nlFree (hst.2.1 _ hr),
        countNewlines_eq_zero_of_nlFree
          (nlFree_join_arguments hst (by simpa using ha))]
      decide

theorem funcHelp_to_txt_decomp (ext : Ext) (h : FunctionHelp) :
    h.to_txt ext = concatList (h.callFormsTxt ext) ++
      (colorize_functions_help ext (ext.indent (wrap ext h.help) "    ") ++
       "\n\n") := by
  unfold FunctionHelp.to_txt FunctionHelp.callFormsTxt
  rw [concatList_cons, concatList_append]
  apply str_data_inj
  simp [str_data_append, List.append_assoc]

theorem callFormsTxt_length (ext : Ext) (h : FunctionHelp) :
    (h.callFormsTxt ext).length =
      1 + (h.aliases.getD []).length + (h.alternatives.getD []).length := by
  simp only [FunctionHelp.callFormsTxt, List.length_cons, List.length_append,
    List.length_map]
  omega

theorem nlFree_md_args_join {args : List String}
    (ha : ∀ a ∈ args, nlFree a) :
    nlFree (joinSep ", " (args.map
      (fun arg => "*" ++ escape_markdown_argument arg ++ "*"))) := by
  apply nlFree_joinSep (by decide)
  intro x hx
  rcases List.mem_map.mp hx with ⟨a, hamem, rfl⟩
  exact nlFree_append
    (nlFree_append (by decide)
      (nlFree_escape_markdown_argument (ha a hamem)))
    (by decide)

theorem nlFree_md_alias_join {names : List String}
    (hal : ∀ a ∈ names, nlFree a) :
    nlFree (joinSep ", " (names.map (fun n => "**" ++ n ++ "**"))) := by
  apply nlFree_joinSep (by decide)
  intro x hx
  rcases List.mem_map.mp hx with ⟨a, hamem, rfl⟩
  exact nlFree_append (nlFree_append (by decide) (hal a hamem)) (by decide)

theorem countNewlines_single_form_md {name returns help : String}
    (hn : nlFree name) (hr : nlFree returns)
    {args_opt : Option (List String)}
    (ha : ∀ a ∈ args_opt.getD [], nlFree a)
    {aliases : Option (List String)}
    (hal : ∀ a ∈ aliases.getD [], nlFree a) :
    countNewlines (single_form_md name args_opt returns help aliases) = 0 := by
  cases args_opt with
  | none =>
      cases aliases with
      | none =>
          simp only [single_form_md, countNewlines_append]
          rw [countNewlines_eq_zero_of_nlFree hn,
            countNewlines_eq_zero_of_nlFree hr,
            countNewlines_escape_markdown_linebreaks]
          decide
      | some names =>
          simp only [single_form_md, countNewlines_append]
          rw [countNewlines_eq_zero_of_nlFree hn,
            countNewlines_eq_zero_of_nlFree hr,
            countNewlines_eq_zero_of_nlFree (@nlFree_md_alias_join names (fun a ha' => hal a ha')),
            countNewlines_escape_markdown_linebreaks]
          decide
  | some args =>
      cases aliases with
      | none =>
          simp only [single_form_md, countNewlines_append]
          rw [countNewlines_eq_zero_of_nlFree hn,
            countNewlines_eq_zero_of_nlFree hr,
            countNewlines_eq_zero_of_nlFree (@nlFree_md_args_join args (fun a ha' => ha a ha')),
            countNewlines_escape_markdown_linebreaks]
          decide
      | some names =>
          simp only [single_form_md, countNewlines_append]
          rw [countNewlines_eq_zero_of_nlFree hn,
            countNewlines_eq_zero_of_nlFree hr,
            countNewlines_eq_zero_of_nlFree (@nlFree_md_args_join args (fun a ha' => ha a ha')),
            countNewlines_eq_zero_of_nlFree (@nlFree_md_alias_join names (fun a ha' => hal a ha')),
            countNewlines_escape_markdown_linebreaks]
          decide

/-- Claim C2, counterexample: the slug generator is not idempotent on
every string.  On the input consisting of a letter, a space and a
letter, the first application yields a hyphenated token and the second
application deletes the hyphen. -/
theorem claim2_counterexample : slug (slug "a b") ≠ slug "a b" := by decide

/-- Claim C2, amended: slug is idempotent exactly on the inputs that
contain no space character.  For every string `s` without a space,
`slug (slug s) = slug s`; when `s` contains a space, the first
application introduces a hyphen which the second application deletes,
so the results differ. -/
theorem claim2_slug_idempotent_iff (s : String) :
    slug (slug s) = slug s ↔ ' ' ∉ s.data := by
  have hiff : slug (slug s) = slug s ↔
      slugList (slugList s.data) = slugList s.data :=
    ⟨fun h => congrArg String.data h, fun h => str_data_inj h⟩
  rw [hiff]
  exact slugList_idem_iff s.data

/-- Claim C9: every character of a slug is an ASCII lowercase letter,
an ASCII digit, or a hyphen; slugs never contain spaces, uppercase
ASCII letters, or non-ASCII characters. -/
theorem claim9_slug_charset (s : String) (c : Char)
    (hc : c ∈ (slug s).data) :
    (97 ≤ c.toNat ∧ c.toNat ≤ 122) ∨ (48 ≤ c.toNat ∧ c.toNat ≤ 57) ∨
    c = '-' := by
  have hmem : c ∈ slugList s.data := hc
  rcases mem_slugList_lowerAlnum_or_hyphen hmem with h | h
  · rcases h with h | h
    · exact Or.inl h
    · exact Or.inr (Or.inl h)
  · exact Or.inr (Or.inr h)

/-- Witness for claim C9 at a concrete input. -/
theorem claim9_witness :
    ('f' ∈ (slug "Foo Bar!").data) ∧
    ((97 ≤ 'f'.toNat ∧ 'f'.toNat ≤ 122) ∨
     (48 ≤ 'f'.toNat ∧ 'f'.toNat ≤ 57) ∨ 'f' = '-') :=
  ⟨by decide, claim9_slug_charset "Foo Bar!" 'f' (by decide)⟩

/-- Claim C6: rendering an operator section, in terminal or Markdown
form, fails (the source's `.max().unwrap()` over the example snippet
lengths panics) exactly when the section's example sequence is empty;
with at least one example the column-width computation succeeds and
rendering returns a result. -/
theorem claim6_empty_examples_panic (ext : Ext) (s : OperatorHelpSection) :
    (OperatorHelpSection.to_txt ext s = none ↔ s.examples = []) ∧
    (OperatorHelpSection.to_md s = none ↔ s.examples = []) := by
  constructor
  · simp [OperatorHelpSection.to_txt, OperatorHelpSection.maxWidth,
      Option.map_eq_none', List.max?_eq_none_iff, List.map_eq_nil_iff]
  · simp [OperatorHelpSection.to_md, OperatorHelpSection.maxWidth,
      Option.map_eq_none', List.max?_eq_none_iff, List.map_eq_nil_iff]

/-- Claim C10: filtering the terminal rendering of the function
document with the empty query produces exactly the same output as
supplying no query: every section is kept and the Operators block is
included. -/
theorem claim10_empty_query (ext : Ext) (self : FunctionHelpSections)
    (ops : OperatorHelpSections) :
    FunctionHelpSections.to_txt ext self ops (some "") =
      FunctionHelpSections.to_txt ext self ops none := by
  simp only [FunctionHelpSections.to_txt, filteredSections_empty_query,
    show shouldKeepOperators (some "") = true from rfl,
    show shouldKeepOperators none = true from rfl,
    show FunctionHelpSections.filteredSections self none = self.sections
      from rfl]

/-- Claim C4, counterexample: the raw JSON dump is not byte-identical
to the embedded blob — the source writes it with `writeln!`, which
appends a newline. -/
theorem claim4_counterexample :
    run extWithFunctionsJson ⟨Cmd.functions, false, false, none, true, false⟩ =
      RunResult.ok "[]\n" ∧ "[]\n" ≠ "[]" :=
  ⟨by decide, by decide⟩

/-- Claim C4, amended: for each document kind backed by a structured
blob (functions, aggregates, scraping), the raw JSON dump mode outputs
the embedded blob unmodified followed by exactly one appended newline
(from `writeln!`). -/
theorem claim4_raw_dump_newline (ext : Ext) (md : Bool) :
    run ext ⟨Cmd.functions, false, false, none, true, md⟩ =
      RunResult.ok (ext.functionsJsonStr ++ "\n") ∧
    run ext ⟨Cmd.aggs, false, false, none, true, md⟩ =
      RunResult.ok (ext.aggsJsonStr ++ "\n") ∧
    run ext ⟨Cmd.scraping, false, false, none, true, md⟩ =
      RunResult.ok (ext.scrapingJsonStr ++ "\n") :=
  ⟨rfl, rfl, rfl⟩

/-- Claim C3, counterexample: in the Markdown rendering of the
cheatsheet, the cross-reference link is not replaced — the source
prints the raw cheatsheet body, so the link wrapper survives in the
output. -/
theorem claim3_counterexample :
    run extWithLinkedCheatsheet ⟨Cmd.cheatsheet, false, false, none, false, true⟩ =
      RunResult.ok ("see [`xan help functions`](./functions.md)" ++ "\n") ∧
    strContains ("see [`xan help functions`](./functions.md)" ++ "\n")
      "[`xan help functions`](./functions.md)" = true :=
  ⟨rfl, by decide⟩

/-- Claim C3, amended: the Markdown rendering of the cheatsheet outputs
the body unchanged (so the literal link survives there), while the
terminal rendering first rewrites the body by replacing the literal
link with the plain inline code span, before any colorization pass
runs; on the spec's example body the rewritten text contains the code
span and no link wrapper. -/
theorem claim3_cheatsheet_link_rewrite (ext : Ext) :
    run ext ⟨Cmd.cheatsheet, false, false, none, false, true⟩ =
      RunResult.ok (ext.cheatsheetStr ++ "\n") ∧
    run ext ⟨Cmd.cheatsheet, false, false, none, false, false⟩ =
      RunResult.ok (recombobulate_cheatsheet ext ext.cheatsheetStr ++ "\n") ∧
    recombobulate_cheatsheet ext ext.cheatsheetStr =
      ext.commentPass (ext.codeFencePass (ext.linkPass
        (colorize_functions_help ext (ext.numberPass
          (rustReplace (rustReplace (rustReplace ext.cheatsheetStr
            "[`xan help functions`](./functions.md)" "`xan help functions`")
            "[`xan help cheatsheet`](./cheatsheet.md)" "`xan help cheatsheet`")
            "[`xan help aggs`](./aggs.md)" "`xan help aggs`"))))) ∧
    rustReplace "see [`xan help functions`](./functions.md)"
      "[`xan help functions`](./functions.md)" "`xan help functions`" =
      "see `xan help functions`" ∧
    strContains "see `xan help functions`"
      "[`xan help functions`](./functions.md)" = false :=
  ⟨rfl, rfl, rfl, by decide, by decide⟩

/-- Claim C1, counterexample: the query "op" does not contain the
substring "operator", yet the Operators block (its summary entry
"- Operators" and its full section header "## Operators") is present in
the filtered terminal rendering, because the source keeps the block
whenever the lowercased query is a substring of the word "operators" —
not when the query contains "operator". -/
theorem claim1_counterexample :
    strContains "op" "operator" = false ∧
    (match FunctionHelpSections.to_txt idExt sampleFunctions sampleOperators
        (some "op") with
     | some out => strContains out "- Operators\n" &&
         strContains out "## Operators"
     | none => false) = true :=
  ⟨by decide, by decide⟩

/-- Claim C1, amended: for every query, the Operators block (summary
entry and full section) is present in the filtered terminal rendering
if and only if the lowercased query is a substring of the literal word
"operators" (the source's `"operators".contains(query.to_lowercase())`);
otherwise both parts of the block are absent. -/
theorem claim1_operators_guard (ext : Ext) (self : FunctionHelpSections)
    (ops : OperatorHelpSections) (q : String) :
    shouldKeepOperators (some q) =
      strContains "operators" (rustToLowercase q) ∧
    FunctionHelpSections.to_txt ext self ops (some q) =
      (if strContains "operators" (rustToLowercase q) then
        (OperatorHelpSections.to_txt ext ops).map (fun t =>
          colorize_functions_help ext ext.functionsPreludeStr ++ "\n" ++
          ops.txt_summary ++
          joinSep "\n" ((self.filteredSections (some q)).map
            (fun s => "- " ++ s.title)) ++
          "\n\n" ++
          colorize_functions_help ext t ++
          concatList ((self.filteredSections (some q)).map
            (fun s => s.to_txt ext)))
      else
        some (colorize_functions_help ext ext.functionsPreludeStr ++ "\n" ++
          joinSep "\n" ((self.filteredSections (some q)).map
            (fun s => "- " ++ s.title)) ++
          "\n\n" ++
          concatList ((self.filteredSections (some q)).map
            (fun s => s.to_txt ext)))) :=
  ⟨rfl, functionSections_to_txt_decomp ext self ops q⟩

/-- Claim C5: a section of the function document is retained by the
filter exactly when its lowercased title contains the lowercased query,
and the filtered rendering (summary and body alike) equals the
rendering of the document consisting of exactly the retained
sections. -/
theorem claim5_section_filtering (ext : Ext) (self : FunctionHelpSections)
    (ops : OperatorHelpSections) (q : String) :
    (∀ s, s ∈ self.filteredSections (some q) ↔
      (s ∈ self.sections ∧
       strContains (rustToLowercase s.title) (rustToLowercase q) = true)) ∧
    FunctionHelpSections.to_txt ext self ops (some q) =
      FunctionHelpSections.to_txt ext
        (⟨self.filteredSections (some q)⟩ : FunctionHelpSections) ops
        (some q) := by
  constructor
  · intro s
    unfold FunctionHelpSections.filteredSections
    exact List.mem_filter
  · have hfix : FunctionHelpSections.filteredSections
        (⟨self.filteredSections (some q)⟩ : FunctionHelpSections) (some q) =
        self.filteredSections (some q) := by
      conv_lhs => unfold FunctionHelpSections.filteredSections
      apply List.filter_eq_self.mpr
      intro s hs
      unfold FunctionHelpSections.filteredSections at hs
      exact (List.mem_filter.mp hs).2
    rw [functionSections_to_txt_decomp, functionSections_to_txt_decomp, hfix]

/-- Witness for claim C5 at a concrete document and query. -/
theorem claim5_witness :
    ((⟨"Dates", []⟩ : FunctionHelpSection) ∈
        sampleFunctions.filteredSections (some "date") ↔
      ((⟨"Dates", []⟩ : FunctionHelpSection) ∈ sampleFunctions.sections ∧
       strContains (rustToLowercase "Dates") (rustToLowercase "date") =
         true)) ∧
    FunctionHelpSections.to_txt idExt sampleFunctions sampleOperators
        (some "date") =
      FunctionHelpSections.to_txt idExt
        (⟨sampleFunctions.filteredSections (some "date")⟩ :
          FunctionHelpSections) sampleOperators (some "date") :=
  ⟨(claim5_section_filtering idExt sampleFunctions sampleOperators "date").1 _,
   (claim5_section_filtering idExt sampleFunctions sampleOperators "date").2⟩

/-- Claim C7: in terminal rendering, a function entry produces exactly
1 + N + M call-signature lines — the primary form, one per alias
(sharing the primary's arguments and return type), one per alternative
argument list (sharing the primary's name and return type) — followed
by the colorized help prose block appended exactly once; when the
styling inserts no newlines and the entry's fields are newline-free,
each call form is exactly one line. -/
theorem claim7_call_form_expansion (ext : Ext) (h : FunctionHelp)
    (hst : nlPreservingStyle ext) (hn : nlFree h.name)
    (hr : nlFree h.returns)
    (ha : ∀ a ∈ h.arguments.getD [], nlFree a)
    (hal : ∀ a ∈ h.aliases.getD [], nlFree a)
    (halt : ∀ alt ∈ h.alternatives.getD [], ∀ a ∈ alt, nlFree a) :
    h.to_txt ext = concatList (h.callFormsTxt ext) ++
      (colorize_functions_help ext (ext.indent (wrap ext h.help) "    ") ++
       "\n\n") ∧
    (h.callFormsTxt ext).length =
      1 + (h.aliases.getD []).length + (h.alternatives.getD []).length ∧
    (∀ f ∈ h.callFormsTxt ext, countNewlines f = 1) := by
  refine ⟨funcHelp_to_txt_decomp ext h, callFormsTxt_length ext h, ?_⟩
  intro f hf
  rcases List.mem_cons.mp hf with hf' | hf'
  · subst hf'
    exact countNewlines_single_form_txt hst hn hr ha
  · rcases List.mem_append.mp hf' with hmem | hmem
    · rcases List.mem_map.mp hmem with ⟨a, hamem, rfl⟩
      exact countNewlines_single_form_txt hst (hal a hamem) hr ha
    · rcases List.mem_map.mp hmem with ⟨alt, haltmem, rfl⟩
      exact countNewlines_single_form_txt hst hn hr
        (fun a ha' => halt alt haltmem a ha')

/-- Witness for claim C7 at a concrete entry with one alias and two
alternative argument lists, under the identity styling. -/
theorem claim7_witness :
    sampleEntry.to_txt idExt = concatList (sampleEntry.callFormsTxt idExt) ++
      (colorize_functions_help idExt
        (idExt.indent (wrap idExt sampleEntry.help) "    ") ++ "\n\n") ∧
    (sampleEntry.callFormsTxt idExt).length =
      1 + (sampleEntry.aliases.getD []).length +
        (sampleEntry.alternatives.getD []).length ∧
    (∀ f ∈ sampleEntry.callFormsTxt idExt, countNewlines f = 1) :=
  claim7_call_form_expansion idExt sampleEntry
    ⟨fun _ p => p, fun _ p => p, fun _ p => p, fun _ p => p⟩
    (by decide) (by decide) (by decide) (by decide) (by decide)

/-- Claim C8: in Markdown rendering, an entry with aliases
`["a", "b"]` produces exactly one call-signature line, which lists both
aliases inline in a single parenthesised clause; an entry with two
alternative argument lists produces exactly one additional
call-signature line per alternative (three lines in total). -/
theorem claim8_md_call_forms
    (name : String) (args_opt : Option (List String)) (returns help : String)
    (x y : String) (al : Option (List String))
    (hn : nlFree name) (hr : nlFree returns)
    (hargs : ∀ a ∈ args_opt.getD [], nlFree a)
    (hx : nlFree x) (hy : nlFree y)
    (hal : ∀ a ∈ al.getD [], nlFree a) :
    (FunctionHelp.to_md ⟨name, args_opt, returns, help, some ["a", "b"], none⟩ =
      single_form_md name args_opt returns help (some ["a", "b"]) ++ "\n") ∧
    countNewlines (FunctionHelp.to_md
      ⟨name, args_opt, returns, help, some ["a", "b"], none⟩) = 1 ∧
    (single_form_md name args_opt returns help (some ["a", "b"]) =
      "- **" ++ name ++ "**" ++
      (match args_opt with
       | some args =>
           "(" ++ joinSep ", " (args.map
             (fun arg => "*" ++ escape_markdown_argument arg ++ "*")) ++ ")"
       | none => "") ++
      " -> `" ++ returns ++ "`" ++ " (aliases: **a**, **b**)" ++ ": " ++
      escape_markdown_linebreaks help) ∧
    (FunctionHelp.to_md ⟨name, args_opt, returns, help, al, some [[x], [y]]⟩ =
      single_form_md name args_opt returns help al ++
      ("\n" ++ single_form_md name (some [x]) returns help al) ++
      ("\n" ++ single_form_md name (some [y]) returns help al) ++ "\n") ∧
    countNewlines (FunctionHelp.to_md
      ⟨name, args_opt, returns, help, al, some [[x], [y]]⟩) = 3 := by
  have heq1 : FunctionHelp.to_md
      ⟨name, args_opt, returns, help, some ["a", "b"], none⟩ =
      single_form_md name args_opt returns help (some ["a", "b"]) ++ "\n" := by
    apply str_data_inj
    simp [FunctionHelp.to_md, concatList, str_data_append]
  have heq4 : FunctionHelp.to_md
      ⟨name, args_opt, returns, help, al, some [[x], [y]]⟩ =
      single_form_md name args_opt returns help al ++
      ("\n" ++ single_form_md name (some [x]) returns help al) ++
      ("\n" ++ single_form_md name (some [y]) returns help al) ++ "\n" := by
    apply str_data_inj
    simp [FunctionHelp.to_md, concatList, str_data_append, List.append_assoc]
  refine ⟨heq1, ?_, ?_, heq4, ?_⟩
  · rw [heq1, countNewlines_append,
      countNewlines_single_form_md hn hr hargs (by decide)]
    decide
  · have halias : joinSep ", " ((["a", "b"] : List String).map
        (fun n => "**" ++ n ++ "**")) = "**a**, **b**" := by decide
    have hlit : (" (aliases: " ++ "**a**, **b**" ++ ")" : String) =
        " (aliases: **a**, **b**)" := by decide
    cases args_opt with
    | none =>
        simp only [single_form_md]
        rw [halias, hlit]
    | some args =>
        simp only [single_form_md]
        rw [halias, hlit]
  · rw [heq4]
    rw [countNewlines_append, countNewlines_append, countNewlines_append,
      countNewlines_append, countNewlines_append,
      countNewlines_single_form_md hn hr hargs hal,
      countNewlines_single_form_md hn hr
        (by intro a ha'
            have : a = x := by simpa using ha'
            exact this ▸ hx) hal,
      countNewlines_single_form_md hn hr
        (by intro a ha'
            have : a = y := by simpa using ha'
            exact this ▸ hy) hal]
    decide

/-- Witness for claim C8 at concrete field values. -/
theorem claim8_witness :
    (FunctionHelp.to_md ⟨"f", none, "int", "h", some ["a", "b"], none⟩ =
      single_form_md "f" none "int" "h" (some ["a", "b"]) ++ "\n") ∧
    countNewlines (FunctionHelp.to_md
      ⟨"f", none, "int", "h", some ["a", "b"], none⟩) = 1 ∧
    (single_form_md "f" none "int" "h" (some ["a", "b"]) =
      "- **" ++ "f" ++ "**" ++
      (match (none : Option (List String)) with
       | some args =>
           "(" ++ joinSep ", " (args.map
             (fun arg => "*" ++ escape_markdown_argument arg ++ "*")) ++ ")"
       | none => "") ++
      " -> `" ++ "int" ++ "`" ++ " (aliases: **a**, **b**)" ++ ": " ++
      escape_markdown_linebreaks "h") ∧
    (FunctionHelp.to_md ⟨"f", none, "int", "h", none, some [["u"], ["v"]]⟩ =
      single_form_md "f" none "int" "h" none ++
      ("\n" ++ single_form_md "f" (some ["u"]) "int" "h" none) ++
      ("\n" ++ single_form_md "f" (some ["v"]) "int" "h" none) ++ "\n") ∧
    countNewlines (FunctionHelp.to_md
      ⟨"f", none, "int", "h", none, some [["u"], ["v"]]⟩) = 3 :=
  claim8_md_call_forms "f" none "int" "h" "u" "v" none
    (by decide) (by decide) (by decide) (by decide) (by decide) (by decide)

end XanHelp
